import Mathlib

/-!
Verification of the DNS monitor's scan pipeline (`src/routes/api/dns.ts`).

The TypeScript source is shallowly embedded below: every model definition is a
direct transliteration of the corresponding function or constant of the source
file, with JavaScript string operations modelled by executable char-list
primitives (`localeCompare` is modelled as code-point lexicographic comparison,
which agrees with it on the ASCII names this program produces; `Date`
comparisons are modelled on integer timestamps).  Network effects are made
explicit: each fetch's outcome becomes a parameter of the function that
performed it.  Theorems about the claims of the specification follow the
definitions.
-/

namespace DnsMonitor

/-! ## Char-list string primitives (models of the JS string operations used) -/

/-- Code-point lexicographic strict comparison of char lists. -/
def charsLt : List Char → List Char → Bool
  | _, [] => false
  | [], _ :: _ => true
  | a :: as, b :: bs => if a < b then true else if b < a then false else charsLt as bs

/-- Model of `a.localeCompare(b) < 0`, taken as code-point lexicographic order. -/
def strLt (a b : String) : Bool := charsLt a.data b.data

def charsStartsWith : List Char → List Char → Bool
  | [], _ => true
  | _ :: _, [] => false
  | p :: ps, c :: cs => p == c && charsStartsWith ps cs

/-- Model of `s.startsWith(p)`. -/
def strStartsWith (s p : String) : Bool := charsStartsWith p.data s.data

/-- Model of `s.endsWith(p)`. -/
def strEndsWith (s p : String) : Bool := charsStartsWith p.data.reverse s.data.reverse

/-- Model of `String.prototype.trim` (ASCII whitespace suffices here). -/
def charsTrim (l : List Char) : List Char :=
  ((l.dropWhile Char.isWhitespace).reverse.dropWhile Char.isWhitespace).reverse

def jsTrim (s : String) : String := ⟨charsTrim s.data⟩

/-- Model of `String.prototype.toLowerCase` (ASCII case mapping). -/
def jsToLower (s : String) : String := ⟨s.data.map Char.toLower⟩

/-- Split a char list at every occurrence of `c` (model of `s.split(c)`). -/
def splitOnChar (c : Char) : List Char → List (List Char)
  | [] => [[]]
  | a :: as =>
    let r := splitOnChar c as
    if a == c then [] :: r
    else match r with
      | [] => [[a]]
      | h :: t => (a :: h) :: t

/-- Model of `s.slice(0, -n)`: drop the last `n` characters. -/
def strDropRight (s : String) (n : Nat) : String := ⟨s.data.take (s.data.length - n)⟩

/-- Model of `parseInt(s, 10)`: `none` stands for `NaN`. -/
def jsParseInt (s : String) : Option Int :=
  let l := s.data.dropWhile Char.isWhitespace
  let signed : Int × List Char :=
    match l with
    | '-' :: t => (-1, t)
    | '+' :: t => (1, t)
    | t => (1, t)
  let digits := signed.2.takeWhile Char.isDigit
  if digits.isEmpty then none
  else some (signed.1 * (digits.foldl (fun acc c => acc * 10 + (c.toNat - '0'.toNat)) 0 : Nat))

/-- Model of `s.replace(/\.$/, "")`: strip one trailing dot. -/
def stripTrailingDot (s : String) : String :=
  match s.data.getLast? with
  | some '.' => ⟨s.data.dropLast⟩
  | _ => s

/-- Model of `s.replace(/^"|"$/g, "")`: strip one leading and one trailing quote. -/
def stripEdgeQuotes (s : String) : String :=
  let l : List Char :=
    match s.data with
    | '"' :: t => t
    | t => t
  match l.getLast? with
  | some '"' => ⟨l.dropLast⟩
  | _ => ⟨l⟩

/-- Model of `parts.slice(i).join(" ")` given the already-sliced list. -/
def joinSpace : List String → String
  | [] => ""
  | [x] => x
  | x :: xs => x ++ " " ++ joinSpace xs

/-! ## Data model (`dns.ts` interfaces) -/

/-- `DnsRecord.value`: `string | object`, split by record kind as `parseRecord` builds it.
An MX `preference` of `none` stands for JavaScript `NaN` (no default is applied there). -/
inductive RecordValue where
  | str (s : String)
  | mx (preference : Option Int) (exchange : String)
  | soa (mname rname : String) (serial refresh retr expire minimum : Int)
  | srv (priority weight port : Int) (target : String)
  deriving DecidableEq

/-- `interface DnsRecord` of `dns.ts`. -/
structure DnsRecord where
  name : String
  type : String
  ttl : Int
  value : RecordValue
  deriving DecidableEq

/-- `interface QueryResult` of `dns.ts`, extended with the `dnssecValid` field that
`queryDns` adds on its success path. -/
structure QueryResult where
  subdomain : String
  type : String
  records : List DnsRecord
  error : Option String := none
  dnssecValid : Option Bool := none
  deriving DecidableEq

/-- `interface WildcardInfo` of `dns.ts`; the `Set` of targets is modelled as a list. -/
structure WildcardInfo where
  hasWildcard : Bool
  wildcardTargets : List String
  wildcardCname : Option String := none
  deriving DecidableEq

/-- One element of the upstream `Answer` array. -/
structure DnsAnswer where
  name : String
  type : Nat
  TTL : Int
  data : String
  deriving DecidableEq

/-- `interface DnsApiResponse` of `dns.ts`. -/
structure DnsApiResponse where
  Status : Int
  AD : Option Bool := none
  Answer : Option (List DnsAnswer) := none
  deriving DecidableEq

/-- The flattened record shape pushed onto `allRecords` in the handler. -/
structure FlatRecord where
  name : String
  type : String
  value : RecordValue
  ttl : Int
  deriving DecidableEq

/-! ## Static query catalog (`QUERIES_TO_RUN` of `dns.ts`) -/

def QUERIES_TO_RUN : List (String × List String) :=
  [("@", ["A", "AAAA", "TXT", "MX", "SOA"]),
   ("@", ["NS"]),
   ("www", ["A", "AAAA", "CNAME"]),
   ("mail", ["A", "AAAA", "CNAME"]),
   ("ftp", ["A", "AAAA", "CNAME"]),
   ("smtp", ["A", "AAAA", "CNAME"]),
   ("pop", ["A", "AAAA", "CNAME"]),
   ("imap", ["A", "AAAA", "CNAME"]),
   ("webmail", ["A", "AAAA", "CNAME"]),
   ("_dmarc", ["TXT"]),
   ("_mta-sts", ["TXT"]),
   ("_smtp._tls", ["TXT"]),
   ("autodiscover", ["CNAME", "A"]),
   ("lyncdiscover", ["CNAME", "A"]),
   ("sip", ["CNAME", "A"]),
   ("enterpriseregistration", ["CNAME"]),
   ("enterpriseenrollment", ["CNAME"]),
   ("_sipfederationtls._tcp", ["SRV"]),
   ("_sip._tls", ["SRV"]),
   ("autoconfig", ["CNAME", "A"]),
   ("selector1._domainkey", ["TXT", "CNAME"]),
   ("selector2._domainkey", ["TXT", "CNAME"]),
   ("google._domainkey", ["TXT", "CNAME"]),
   ("s1._domainkey", ["TXT", "CNAME"]),
   ("s2._domainkey", ["TXT", "CNAME"]),
   ("k2._domainkey", ["TXT", "CNAME"]),
   ("k3._domainkey", ["TXT", "CNAME"]),
   ("default._domainkey", ["TXT", "CNAME"]),
   ("transip-a._domainkey", ["TXT", "CNAME"]),
   ("transip-b._domainkey", ["TXT", "CNAME"]),
   ("transip-c._domainkey", ["TXT", "CNAME"]),
   ("x-transip-mail-auth", ["TXT", "CNAME"]),
   ("_dkim", ["TXT"]),
   ("_domainkey", ["TXT"])]

/-- The handler's `staticSubdomains` set, `new Set(QUERIES_TO_RUN.map(q => q.subdomain))`. -/
def staticSubdomains : List String := QUERIES_TO_RUN.map (·.1)

/-- `WILDCARD_FILTERED_SUBDOMAINS` of `dns.ts`: the catalog minus the apex and
underscore-prefixed subdomains. -/
def WILDCARD_FILTERED_SUBDOMAINS : List String :=
  staticSubdomains.filter (fun s => s != "@" && !(strStartsWith s "_"))

/-- `WILDCARD_AFFECTED_TYPES` of `dns.ts`. -/
def WILDCARD_AFFECTED_TYPES : List String := ["A", "AAAA", "CNAME", "TXT", "CAA"]

/-- `DNS_TYPE_MAP` of `dns.ts`. -/
def DNS_TYPE_MAP : String → Nat
  | "A" => 1
  | "AAAA" => 28
  | "CNAME" => 5
  | "MX" => 15
  | "NS" => 2
  | "TXT" => 16
  | "SOA" => 6
  | "SRV" => 33
  | _ => 0

/-! ## Record normalizer (`parseRecord` of `dns.ts`) -/

def parseRecord (answer : DnsAnswer) (type : String) : DnsRecord :=
  let parts : List String := (splitOnChar ' ' answer.data.data).map String.mk
  let value : RecordValue :=
    match type with
    | "MX" =>
      .mx (jsParseInt (parts.getD 0 "")) (stripTrailingDot (joinSpace (parts.drop 1)))
    | "SOA" =>
      .soa (stripTrailingDot (parts.getD 0 "")) (stripTrailingDot (parts.getD 1 ""))
        ((jsParseInt (parts.getD 2 "")).getD 0) ((jsParseInt (parts.getD 3 "")).getD 0)
        ((jsParseInt (parts.getD 4 "")).getD 0) ((jsParseInt (parts.getD 5 "")).getD 0)
        ((jsParseInt (parts.getD 6 "")).getD 0)
    | "SRV" =>
      .srv ((jsParseInt (parts.getD 0 "")).getD 0) ((jsParseInt (parts.getD 1 "")).getD 0)
        ((jsParseInt (parts.getD 2 "")).getD 0) (stripTrailingDot (parts.getD 3 ""))
    | "TXT" => .str (stripEdgeQuotes answer.data)
    | "CNAME" => .str (stripTrailingDot answer.data)
    | "NS" => .str (stripTrailingDot answer.data)
    | _ => .str answer.data
  { name := stripTrailingDot answer.name, type := type, ttl := answer.TTL, value := value }

/-! ## Resolver client (`queryDns` of `dns.ts`)

The single `fetch` of `queryDns` is made explicit as a `FetchResult` argument:
a thrown error (from the fetch or from `response.json()`), a non-2xx HTTP
response, or a parsed JSON body.  `throwErr` carries whether the thrown value
was an `Error` (then `msg` is its `.message`); a non-`Error` throw yields the
fixed `"Query failed"` text.  `queryDns` is total: it never raises. -/

inductive FetchResult where
  | throwErr (isError : Bool) (msg : String)
  | httpError (status : Nat)
  | success (resp : DnsApiResponse)
  deriving DecidableEq

def queryDnsModel (subdomain type : String) (fetch : FetchResult) : QueryResult :=
  let typeNum := DNS_TYPE_MAP type
  match fetch with
  | .throwErr isError msg =>
    { subdomain := subdomain, type := type, records := [],
      error := some (if isError then msg else "Query failed") }
  | .httpError status =>
    { subdomain := subdomain, type := type, records := [],
      error := some ("HTTP " ++ toString status) }
  | .success data =>
    if data.Status ≠ 0 then
      if data.Status = 3 then
        { subdomain := subdomain, type := type, records := [] }
      else
        { subdomain := subdomain, type := type, records := [],
          error := some ("DNS error: " ++ toString data.Status) }
    else
      match data.Answer with
      | none => { subdomain := subdomain, type := type, records := [] }
      | some answers =>
        { subdomain := subdomain, type := type,
          records := (answers.filter (fun a => a.type == typeNum)).map
            (fun a => parseRecord a type),
          dnssecValid := data.AD }

/-! ## Certificate-Transparency discoverer (`fetchCtSubdomains` of `dns.ts`) -/

/-- `interface CrtShEntry`; `not_after` is the certificate expiration date,
modelled as the integer timestamp `new Date(entry.not_after)` denotes, so that
`new Date(entry.not_after) > now` is `notAfter > now`. -/
structure CrtShEntry where
  name_value : String
  notAfter : Int
  deriving DecidableEq

/-- `entry.name_value.split("\n").map(n => n.trim().toLowerCase())`. -/
def ctNamesOfEntry (e : CrtShEntry) : List String :=
  (splitOnChar '\n' e.name_value.data).map (fun l => jsToLower ⟨charsTrim l⟩)

/-- The body of the per-name loop of `fetchCtSubdomains`: `none` models `continue`,
`some sub` models `subdomainSet.add(sub)`.  The repeated
`strDropRight name (domain.length + 1)` is the loop's `subdomain` variable,
`name.slice(0, -(domain.length + 1))`. -/
def ctCandidate (domain : String) (name : String) : Option String :=
  if name = "" then none
  else if strStartsWith name "*" then none
  else if name = domain then none
  else if strEndsWith name ("." ++ domain) = false then none
  else if strDropRight name (domain.length + 1) ≠ "" ∧
      (strDropRight name (domain.length + 1)).data.contains '@' = false ∧
      (strDropRight name (domain.length + 1)).data.contains ' ' = false then
    some (strDropRight name (domain.length + 1))
  else none

def ctCandidatesOfEntry (domain : String) (e : CrtShEntry) : List String :=
  (ctNamesOfEntry e).filterMap (ctCandidate domain)

/-- Insertion-ordered deduplication, the model of accumulating into a JS `Set`
and reading it back with `Array.from`. -/
def dedupFirst (l : List String) : List String :=
  l.foldl (fun acc x => if acc.contains x then acc else acc ++ [x]) []

/-- The subdomain-extraction part of `fetchCtSubdomains`: only certificates whose
expiration is strictly after `now` contribute names. -/
def ctProcess (domain : String) (entries : List CrtShEntry) (now : Int) : List String :=
  dedupFirst ((entries.filter (fun e => decide (e.notAfter > now))).flatMap
    (ctCandidatesOfEntry domain))

def CT_CACHE_TTL_MS : Int := 60 * 60 * 1000

/-- `interface CtCacheEntry` of `dns.ts`. -/
structure CtCacheEntry where
  subdomains : List String
  totalCerts : Int
  activeCerts : Int
  cachedAt : Int
  deriving DecidableEq

/-- The value `fetchCtSubdomains` returns; `cached = none` models an absent
`cached` field (the live path never sets it). -/
structure CtResult where
  subdomains : List String
  totalCerts : Int
  activeCerts : Int
  cached : Option Bool := none
  deriving DecidableEq

/-- The cache-lookup prelude of `fetchCtSubdomains`: `some` is the early return
with `cached = true`; `none` (no store, no entry, failed read, or stale entry)
falls through to the live fetch. -/
def ctCacheLookup (cacheEntry : Option CtCacheEntry) (now : Int) : Option CtResult :=
  match cacheEntry with
  | some v =>
    if now - v.cachedAt < CT_CACHE_TTL_MS then
      some { subdomains := v.subdomains, totalCerts := v.totalCerts,
             activeCerts := v.activeCerts, cached := some true }
    else none
  | none => none

/-- Outcome of the external `crt.sh` fetch.  `failure` covers every absorbed
failure of the live path (transport error, non-2xx status, empty body,
unparsable JSON), all of which yield the zero-valued result. -/
inductive CtFetch where
  | failure
  | ok (entries : List CrtShEntry)
  deriving DecidableEq

/-- The live (non-cache) path of `fetchCtSubdomains`. -/
def ctLive (domain : String) (f : CtFetch) (now : Int) : CtResult :=
  match f with
  | .failure => { subdomains := [], totalCerts := 0, activeCerts := 0 }
  | .ok entries =>
    { subdomains := ctProcess domain entries now,
      totalCerts := entries.length,
      activeCerts := (entries.filter (fun e => decide (e.notAfter > now))).length }

/-- `fetchCtSubdomains`, with the cache read and the external fetch explicit. -/
def fetchCtModel (cacheEntry : Option CtCacheEntry) (now : Int) (domain : String)
    (f : CtFetch) : CtResult :=
  match ctCacheLookup cacheEntry now with
  | some r => r
  | none => ctLive domain f now

/-! ## Handler input stage (`handler.GET` of `dns.ts`, domain validation) -/

/-- Model of `domain.replace(/^https?:\/\//, "")`. -/
def stripScheme (s : String) : String :=
  if strStartsWith s "https://" then ⟨s.data.drop 8⟩
  else if strStartsWith s "http://" then ⟨s.data.drop 7⟩
  else s

/-- Model of `domain.replace(/\/.*$/, "")`: cut at the first slash.  (The JS
regex leaves the string unchanged when a line terminator follows the slash; no
claim exercises that corner.) -/
def stripPath (s : String) : String := ⟨s.data.takeWhile (fun c => c != '/')⟩

/-- The handler's `cleanDomain` computation. -/
def cleanDomainOf (d : String) : String := stripPath (stripScheme (jsToLower (jsTrim d)))

/-- What the handler does with the `domain` query parameter: `url.searchParams.get`
yields `none` when absent, and `if (!domain)` returns the 400 error for `none`
and for the empty string; otherwise the scan proceeds on `cleanDomain`. -/
inductive HandlerStage where
  | errorResponse (success : Bool) (error : String) (status : Nat)
  | scan (cleanDomain : String)
  deriving DecidableEq

def handlerDomainStage (domainParam : Option String) : HandlerStage :=
  match domainParam with
  | none => .errorResponse false "Domain is required" 400
  | some d => if d = "" then .errorResponse false "Domain is required" 400
              else .scan (cleanDomainOf d)

/-! ## Result filter and assembler (`handler.GET` of `dns.ts`, after the joins) -/

/-- The handler's `ctSubdomains` list: CT-discovered subdomains not already in the
static catalog (those are the ones appended to the work list and to the wildcard
filter set). -/
def ctSubdomainsOf (ctDataSubdomains : List String) : List String :=
  ctDataSubdomains.filter (fun s => !(staticSubdomains.contains s))

/-- Membership in the handler's `wildcardFilteredSubdomains` set
(`new Set([...WILDCARD_FILTERED_SUBDOMAINS, ...ctSubdomains])`). -/
def wildcardEligible (ctSubs : List String) (s : String) : Bool :=
  WILDCARD_FILTERED_SUBDOMAINS.contains s || ctSubs.contains s

/-- The handler's `subdomainsWithCname` set: subdomains of results whose raw
(pre-filter) records contain a CNAME. -/
def subdomainsWithCname (results : List QueryResult) : List String :=
  (results.filter (fun res => res.records.any (fun r => r.type == "CNAME"))).map (·.subdomain)

/-- `typeof r.value === "string" ? r.value : ""`. -/
def recordStrValue (r : DnsRecord) : String :=
  match r.value with
  | .str s => s
  | _ => ""

/-- The predicate of the wildcard false-positive filter: keep `r` unless its type
is wildcard-affected and its string value matches a wildcard target. -/
def keepUnderWildcard (targets : List String) (r : DnsRecord) : Bool :=
  if !(WILDCARD_AFFECTED_TYPES.contains r.type) then true
  else !(targets.contains (recordStrValue r))

/-- The wildcard-filter step applied to one result (`filteredRecords` after the
first `if` of the assembly loop). -/
def wildcardFilterStage (wc : WildcardInfo) (ctSubs : List String) (res : QueryResult) :
    List DnsRecord :=
  if wc.hasWildcard && wildcardEligible ctSubs res.subdomain then
    res.records.filter (keepUnderWildcard wc.wildcardTargets)
  else res.records

/-- The CNAME-coexistence pruning step of the assembly loop: if the subdomain is in
the `subdomainsWithCname` set, only CNAME records are kept. -/
def cnamePruneStage (cnameSubs : List String) (subdomain : String) (l : List DnsRecord) :
    List DnsRecord :=
  if cnameSubs.contains subdomain then l.filter (fun r => r.type == "CNAME") else l

/-- One iteration of the assembly loop: wildcard filter, then CNAME-coexistence
pruning, then flattening with the subdomain as the record name. -/
def processResult (wc : WildcardInfo) (ctSubs : List String) (cnameSubs : List String)
    (res : QueryResult) : List FlatRecord :=
  if res.records.isEmpty then []
  else
    (cnamePruneStage cnameSubs res.subdomain (wildcardFilterStage wc ctSubs res)).map
      (fun r => { name := res.subdomain, type := r.type, value := r.value, ttl := r.ttl })

/-- The handler's `allRecords` before sorting. -/
def assembleUnsorted (results : List QueryResult) (wc : WildcardInfo) (ctSubs : List String) :
    List FlatRecord :=
  results.flatMap (processResult wc ctSubs (subdomainsWithCname results))

/-! ## Sorting (`allRecords.sort` of `dns.ts`) -/

/-- The comparator of `allRecords.sort`, as the strict "a sorts before b" test
(`comparator(a, b) < 0`): apex first, then name, then type. -/
def recordLT (a b : FlatRecord) : Bool :=
  if a.name == "@" && b.name != "@" then true
  else if a.name != "@" && b.name == "@" then false
  else if a.name != b.name then strLt a.name b.name
  else strLt a.type b.type

/-- The non-strict order induced by the comparator (`comparator(a, b) <= 0`). -/
def recordLE (a b : FlatRecord) : Prop := recordLT b a = false

instance : DecidableRel recordLE := fun _ _ => instDecidableEqBool _ _

/-- `Array.prototype.sort` is stable (ES2019); a stable sort by the comparator is
modelled by insertion sort under `recordLE`, which inserts strictly before the
first larger element and therefore preserves the input order of ties. -/
def sortRecords (l : List FlatRecord) : List FlatRecord := List.insertionSort recordLE l

/-! ## Response assembly (`Response.json` payload of `handler.GET`) -/

structure WildcardView where
  detected : Bool
  cname : Option String
  targets : List String
  deriving DecidableEq

structure DnssecView where
  enabled : Bool
  valid : Bool
  deriving DecidableEq

structure CtView where
  enabled : Bool
  totalCerts : Int
  activeCerts : Int
  discoveredSubdomains : Nat
  cached : Bool
  deriving DecidableEq

/-- The success response body; `none` models a spread-omitted optional field. -/
structure ScanResponse where
  success : Bool
  domain : String
  resolver : String
  queryTime : Int
  records : List FlatRecord
  totalRecords : Nat
  wildcard : Option WildcardView
  dnssec : Option DnssecView
  ct : Option CtView
  deriving DecidableEq

/-- The tail of `handler.GET`: assemble, sort, and wrap the response.  `ctData`
is `fetchCtSubdomains`' result when the `ct` flag was set, `none` otherwise. -/
def buildResponse (cleanDomain resolver : String) (queryTime : Int)
    (results : List QueryResult) (wc : WildcardInfo) (dnssecParam : Bool)
    (ctData : Option CtResult) : ScanResponse :=
  let ctSubs : List String :=
    match ctData with
    | some cd => ctSubdomainsOf cd.subdomains
    | none => []
  let allRecords := sortRecords (assembleUnsorted results wc ctSubs)
  let dnssecValid := dnssecParam && results.any (fun r => r.dnssecValid == some true)
  { success := true, domain := cleanDomain, resolver := resolver, queryTime := queryTime,
    records := allRecords, totalRecords := allRecords.length,
    wildcard :=
      if wc.hasWildcard then
        some { detected := true, cname := wc.wildcardCname, targets := wc.wildcardTargets }
      else none,
    dnssec := if dnssecParam then some { enabled := true, valid := dnssecValid } else none,
    ct := ctData.map (fun cd =>
      { enabled := true, totalCerts := cd.totalCerts, activeCerts := cd.activeCerts,
        discoveredSubdomains := (ctSubdomainsOf cd.subdomains).length,
        cached := cd.cached.getD false }) }

/-! ## Specification-side definition (for the refinement comparison of claim C1)

The spec says the CNAME-coexistence pruning is driven by the subdomains with at
least one CNAME record *surviving wildcard filtering*; the code computes its
`subdomainsWithCname` from the raw records instead.  The following definition
follows the spec's words, to be compared with `subdomainsWithCname`. -/

def specSurvivingCnameSubdomains (results : List QueryResult) (wc : WildcardInfo)
    (ctSubs : List String) : List String :=
  (results.filter
    (fun res => (wildcardFilterStage wc ctSubs res).any (fun r => r.type == "CNAME"))).map
    (·.subdomain)

/-! ## Helper lemmas -/

theorem list_contains_iff {α : Type} [BEq α] [LawfulBEq α] (l : List α) (a : α) :
    l.contains a = true ↔ a ∈ l := by
  simp [List.contains, List.elem_iff]

theorem mem_dedupFirst_aux (l : List String) (acc : List String) (x : String) :
    x ∈ l.foldl (fun acc y => if acc.contains y then acc else acc ++ [y]) acc ↔
      x ∈ acc ∨ x ∈ l := by
  induction l generalizing acc with
  | nil => simp
  | cons a t ih =>
    simp only [List.foldl_cons]
    by_cases h : acc.contains a
    · rw [if_pos h, ih]
      constructor
      · rintro (hx | hx)
        · exact Or.inl hx
        · exact Or.inr (List.mem_cons_of_mem _ hx)
      · rintro (hx | hx)
        · exact Or.inl hx
        · rcases List.mem_cons.mp hx with rfl | hx
          · exact Or.inl ((list_contains_iff _ _).mp h)
          · exact Or.inr hx
    · rw [if_neg h, ih]
      constructor
      · rintro (hx | hx)
        · rcases List.mem_append.mp hx with hx | hx
          · exact Or.inl hx
          · rcases List.mem_singleton.mp hx with rfl
            exact Or.inr (List.mem_cons_self _ _)
        · exact Or.inr (List.mem_cons_of_mem _ hx)
      · rintro (hx | hx)
        · exact Or.inl (List.mem_append.mpr (Or.inl hx))
        · rcases List.mem_cons.mp hx with rfl | hx
          · exact Or.inl (List.mem_append.mpr (Or.inr (List.mem_singleton.mpr rfl)))
          · exact Or.inr hx

theorem mem_dedupFirst (l : List String) (x : String) : x ∈ dedupFirst l ↔ x ∈ l := by
  unfold dedupFirst
  rw [mem_dedupFirst_aux]
  simp

theorem append_ne_empty_left (a b : String) (h : a ≠ "") : a ++ b ≠ "" := by
  intro hc
  apply h
  have h1 := congrArg String.length hc
  rw [String.length_append] at h1
  have h0 : ("" : String).length = 0 := rfl
  rw [h0] at h1
  have ha : a.length = 0 := by omega
  cases a with
  | mk d =>
    cases d with
    | nil => rfl
    | cons x xs => simp [String.length] at ha

/-! ### Order theory for the sort comparator -/

theorem charsLt_irrefl (l : List Char) : charsLt l l = false := by
  induction l with
  | nil => rfl
  | cons a t ih => simp [charsLt, ih]

theorem charsLt_asymm {a b : List Char} (h : charsLt a b = true) : charsLt b a = false := by
  induction a generalizing b with
  | nil =>
    cases b with
    | nil => simp [charsLt] at h
    | cons y ys => rfl
  | cons x xs ih =>
    cases b with
    | nil => simp [charsLt] at h
    | cons y ys =>
      simp only [charsLt] at h ⊢
      by_cases hxy : x < y
      · simp [hxy, lt_asymm hxy]
      · by_cases hyx : y < x
        · simp [hxy, hyx] at h
        · simp [hxy, hyx] at h ⊢
          exact ih h

theorem charsLt_eq_of_not {a b : List Char} (h1 : charsLt a b = false)
    (h2 : charsLt b a = false) : a = b := by
  induction a generalizing b with
  | nil =>
    cases b with
    | nil => rfl
    | cons y ys => simp [charsLt] at h1
  | cons x xs ih =>
    cases b with
    | nil => simp [charsLt] at h2
    | cons y ys =>
      simp only [charsLt] at h1 h2
      by_cases hxy : x < y
      · simp [hxy] at h1
      · by_cases hyx : y < x
        · simp [hyx] at h2
        · simp [hxy, hyx] at h1 h2
          have hx : x = y := le_antisymm (not_lt.mp hyx) (not_lt.mp hxy)
          rw [hx, ih h1 h2]

theorem charsLt_trans {a b c : List Char} (h1 : charsLt a b = true)
    (h2 : charsLt b c = true) : charsLt a c = true := by
  induction a generalizing b c with
  | nil =>
    cases c with
    | nil =>
      cases b with
      | nil => simp [charsLt] at h1
      | cons y ys => simp [charsLt] at h2
    | cons z zs => rfl
  | cons x xs ih =>
    cases b with
    | nil => simp [charsLt] at h1
    | cons y ys =>
      cases c with
      | nil => simp [charsLt] at h2
      | cons z zs =>
        simp only [charsLt] at h1 h2 ⊢
        by_cases hxy : x < y
        · by_cases hyz : y < z
          · simp [lt_trans hxy hyz]
          · by_cases hzy : z < y
            · simp [hyz, hzy] at h2
            · have hyzeq : y = z := le_antisymm (not_lt.mp hzy) (not_lt.mp hyz)
              subst hyzeq
              simp [hxy]
        · by_cases hyx : y < x
          · simp [hxy, hyx] at h1
          · have hxyeq : x = y := le_antisymm (not_lt.mp hyx) (not_lt.mp hxy)
            subst hxyeq
            by_cases hxz : x < z
            · simp [hxz]
            · by_cases hzx : z < x
              · simp [hxz, hzx] at h2
              · simp [lt_irrefl] at h1
                simp [hxz, hzx] at h2 ⊢
                exact ih h1 h2

theorem strLt_irrefl (a : String) : strLt a a = false := charsLt_irrefl _

theorem strLt_asymm {a b : String} (h : strLt a b = true) : strLt b a = false :=
  charsLt_asymm h

theorem strLt_trans {a b c : String} (h1 : strLt a b = true) (h2 : strLt b c = true) :
    strLt a c = true :=
  charsLt_trans h1 h2

theorem strLt_eq_of_not {a b : String} (h1 : strLt a b = false) (h2 : strLt b a = false) :
    a = b := by
  cases a with
  | mk da =>
    cases b with
    | mk db => exact congrArg String.mk (charsLt_eq_of_not h1 h2)

theorem recordLT_congr_left {a b x : FlatRecord} (hn : a.name = b.name) (ht : a.type = b.type) :
    recordLT a x = recordLT b x := by
  simp [recordLT, hn, ht]

theorem recordLT_asymm {a b : FlatRecord} (h : recordLT a b = true) : recordLT b a = false := by
  by_cases ha : a.name = "@" <;> by_cases hb : b.name = "@"
  · simp [recordLT, ha, hb] at h ⊢
    exact strLt_asymm h
  · simp [recordLT, ha, hb]
  · simp [recordLT, ha, hb] at h
  · by_cases hab : a.name = b.name
    · simp [recordLT, hab, hb] at h ⊢
      exact strLt_asymm h
    · simp [recordLT, ha, hb, hab, Ne.symm hab] at h ⊢
      exact strLt_asymm h

theorem recordLT_tie {a b : FlatRecord} (h1 : recordLT a b = false) (h2 : recordLT b a = false) :
    a.name = b.name ∧ a.type = b.type := by
  by_cases ha : a.name = "@" <;> by_cases hb : b.name = "@"
  · simp [recordLT, ha, hb] at h1 h2
    exact ⟨ha.trans hb.symm, strLt_eq_of_not h1 h2⟩
  · simp [recordLT, ha, hb] at h1
  · simp [recordLT, ha, hb] at h2
  · by_cases hab : a.name = b.name
    · simp [recordLT, hab, hb] at h1 h2
      exact ⟨hab, strLt_eq_of_not h1 h2⟩
    · simp [recordLT, ha, hb, hab, Ne.symm hab] at h1 h2
      exact absurd (strLt_eq_of_not h1 h2) hab

theorem recordLT_trans {a b c : FlatRecord} (h1 : recordLT a b = true)
    (h2 : recordLT b c = true) : recordLT a c = true := by
  by_cases ha : a.name = "@" <;> by_cases hb : b.name = "@" <;> by_cases hc : c.name = "@"
  · simp [recordLT, ha, hb, hc] at h1 h2 ⊢
    exact strLt_trans h1 h2
  · simp [recordLT, ha, hc]
  · simp [recordLT, hb, hc] at h2
  · simp [recordLT, ha, hc]
  · simp [recordLT, ha, hb] at h1
  · simp [recordLT, ha, hb] at h1
  · simp [recordLT, hb, hc] at h2
  · by_cases hab : a.name = b.name <;> by_cases hbc : b.name = c.name
    · simp [recordLT, hab, hbc, hc] at h1 h2 ⊢
      exact strLt_trans h1 h2
    · simp [recordLT, hab, hb, hc, hbc, Ne.symm hbc] at h1 h2 ⊢
      exact h2
    · simp [recordLT, ha, hb, hab, Ne.symm hab] at h1
      have hac : a.name ≠ c.name := by
        rw [← hbc]
        exact hab
      simp [recordLT, ha, hc, hac, Ne.symm hac]
      rw [← hbc]
      exact h1
    · simp [recordLT, ha, hb, hc, hab, hbc, Ne.symm hab, Ne.symm hbc] at h1 h2
      by_cases hac : a.name = c.name
      · rw [← hac] at h2
        exact absurd h2 (by rw [strLt_asymm h1]; simp)
      · simp [recordLT, ha, hc, hac, Ne.symm hac]
        exact strLt_trans h1 h2

theorem recordLE_total (a b : FlatRecord) : recordLE a b ∨ recordLE b a := by
  unfold recordLE
  by_cases h : recordLT b a = true
  · exact Or.inr (recordLT_asymm h)
  · exact Or.inl (Bool.eq_false_iff.mpr h)

theorem recordLE_trans {a b c : FlatRecord} (h1 : recordLE a b) (h2 : recordLE b c) :
    recordLE a c := by
  unfold recordLE at h1 h2 ⊢
  by_contra hca
  have hca' : recordLT c a = true := by simpa using hca
  by_cases h3 : recordLT b c = true
  · exact absurd (recordLT_trans h3 hca') (by rw [h1]; simp)
  · have h3' : recordLT b c = false := Bool.eq_false_iff.mpr h3
    have htie := recordLT_tie h3' h2
    have := recordLT_congr_left (x := a) htie.1.symm htie.2.symm
    rw [← this] at h1
    exact absurd hca' (by rw [h1]; simp)

instance : IsTotal FlatRecord recordLE := ⟨recordLE_total⟩

instance : IsTrans FlatRecord recordLE := ⟨fun _ _ _ => recordLE_trans⟩

/-- The sort order in the claim's terms: an apex record precedes every non-apex
record; otherwise names ascend; records with equal names have ascending kind
names. -/
def apexFirstOrder (a b : FlatRecord) : Prop :=
  (a.name = "@" ∧ b.name ≠ "@") ∨
  (a.name = b.name ∧ strLt b.type a.type = false) ∨
  (a.name ≠ "@" ∧ b.name ≠ "@" ∧ strLt a.name b.name = true)

theorem recordLE_imp_apexFirstOrder {a b : FlatRecord} (h : recordLE a b) :
    apexFirstOrder a b := by
  unfold recordLE at h
  unfold apexFirstOrder
  by_cases ha : a.name = "@" <;> by_cases hb : b.name = "@"
  · simp [recordLT, ha, hb] at h
    exact Or.inr (Or.inl ⟨ha.trans hb.symm, h⟩)
  · exact Or.inl ⟨ha, hb⟩
  · simp [recordLT, ha, hb] at h
  · by_cases hab : a.name = b.name
    · simp [recordLT, hab, hb] at h
      exact Or.inr (Or.inl ⟨hab, h⟩)
    · simp [recordLT, ha, hb, hab, Ne.symm hab] at h
      refine Or.inr (Or.inr ⟨ha, hb, ?_⟩)
      by_cases hs : strLt a.name b.name = true
      · exact hs
      · exact absurd (strLt_eq_of_not (Bool.eq_false_iff.mpr hs) h) hab

/-- Two sorted lists that are permutations of each other and whose members are
determined by their (name, type) key are equal. -/
theorem sortedPermUnique (l₁ : List FlatRecord) : ∀ (l₂ : List FlatRecord),
    List.Pairwise recordLE l₁ → List.Pairwise recordLE l₂ → l₁.Perm l₂ →
    (∀ a ∈ l₁, ∀ b ∈ l₁, a.name = b.name → a.type = b.type → a = b) → l₁ = l₂ := by
  induction l₁ with
  | nil =>
    intro l₂ _ _ hp _
    exact (hp.symm.eq_nil).symm
  | cons x xs ih =>
    intro l₂ hs1 hs2 hp hinj
    cases l₂ with
    | nil => exact absurd hp.eq_nil (by simp)
    | cons y ys =>
      have hxmem : x ∈ y :: ys := hp.mem_iff.mp (List.mem_cons_self x xs)
      have hymem : y ∈ x :: xs := hp.mem_iff.mpr (List.mem_cons_self y ys)
      have hxy : x = y := by
        rcases List.mem_cons.mp hxmem with h | hxys
        · exact h
        · rcases List.mem_cons.mp hymem with h | hyxs
          · exact h.symm
          · have h1 : recordLE x y := (List.pairwise_cons.mp hs1).1 y hyxs
            have h2 : recordLE y x := (List.pairwise_cons.mp hs2).1 x hxys
            have htie := recordLT_tie h2 h1
            exact hinj x (List.mem_cons_self x xs) y hymem htie.1 htie.2
      subst hxy
      have hinj' : ∀ a ∈ xs, ∀ b ∈ xs, a.name = b.name → a.type = b.type → a = b :=
        fun a ha b hb => hinj a (List.mem_cons_of_mem _ ha) b (List.mem_cons_of_mem _ hb)
      rw [ih ys hs1.of_cons hs2.of_cons hp.cons_inv hinj']

theorem mem_of_mem_wildcardFilterStage {wc : WildcardInfo} {ctSubs : List String}
    {res : QueryResult} {rec : DnsRecord} (h : rec ∈ wildcardFilterStage wc ctSubs res) :
    rec ∈ res.records := by
  unfold wildcardFilterStage at h
  by_cases hcond : (wc.hasWildcard && wildcardEligible ctSubs res.subdomain) = true
  · rw [if_pos hcond] at h
    exact (List.mem_filter.mp h).1
  · rw [if_neg hcond] at h
    exact h

theorem ctCandidate_eq_some_iff {domain name s : String} :
    ctCandidate domain name = some s ↔
      (name ≠ "" ∧ strStartsWith name "*" = false ∧ name ≠ domain ∧
       strEndsWith name ("." ++ domain) = true ∧
       s = strDropRight name (domain.length + 1) ∧ s ≠ "" ∧
       s.data.contains '@' = false ∧ s.data.contains ' ' = false) := by
  unfold ctCandidate
  by_cases h1 : name = ""
  · simp [h1]
  · rw [if_neg h1]
    by_cases h2 : strStartsWith name "*" = true
    · simp [h1, h2]
    · have h2' : strStartsWith name "*" = false := Bool.eq_false_iff.mpr h2
      rw [if_neg h2]
      by_cases h3 : name = domain
      · simp [h1, h2', h3]
      · rw [if_neg h3]
        by_cases h4 : strEndsWith name ("." ++ domain) = false
        · rw [if_pos h4]
          simp [h1, h2', h3, h4]
        · have h4' : strEndsWith name ("." ++ domain) = true := by
            cases hh : strEndsWith name ("." ++ domain)
            · exact absurd hh h4
            · rfl
          rw [if_neg h4]
          by_cases h5 : (strDropRight name (domain.length + 1) ≠ "" ∧
              (strDropRight name (domain.length + 1)).data.contains '@' = false ∧
              (strDropRight name (domain.length + 1)).data.contains ' ' = false)
          · rw [if_pos h5]
            constructor
            · intro h
              have hs : strDropRight name (domain.length + 1) = s := Option.some_inj.mp h
              subst hs
              exact ⟨h1, h2', h3, h4', rfl, h5.1, h5.2.1, h5.2.2⟩
            · rintro ⟨-, -, -, -, hs, -, -, -⟩
              rw [hs]
          · rw [if_neg h5]
            constructor
            · intro h
              cases h
            · rintro ⟨-, -, -, -, hs, hne, hat, hsp⟩
              subst hs
              exact absurd ⟨hne, hat, hsp⟩ h5

/-! ## Claim C1: CNAME-coexistence pruning -/

theorem assemble_cname_pruned (results : List QueryResult) (wc : WildcardInfo)
    (ctSubs : List String) (r : FlatRecord) (hmem : r ∈ assembleUnsorted results wc ctSubs)
    (hcn : (subdomainsWithCname results).contains r.name = true) : r.type = "CNAME" := by
  unfold assembleUnsorted at hmem
  rw [List.mem_flatMap] at hmem
  obtain ⟨res, hres, hproc⟩ := hmem
  unfold processResult at hproc
  by_cases hempty : res.records.isEmpty = true
  · rw [if_pos hempty] at hproc
    cases hproc
  · rw [if_neg hempty, List.mem_map] at hproc
    obtain ⟨rec, hrec, hflat⟩ := hproc
    have hname : r.name = res.subdomain := by rw [← hflat]
    rw [hname] at hcn
    unfold cnamePruneStage at hrec
    rw [if_pos hcn, List.mem_filter] at hrec
    have h2 : rec.type = "CNAME" := by simpa using hrec.2
    rw [← hflat]
    exact h2

theorem assemble_keeps_of_no_raw_cname (results : List QueryResult) (wc : WildcardInfo)
    (ctSubs : List String) (res : QueryResult) (rec : DnsRecord) (hres : res ∈ results)
    (hcn : (subdomainsWithCname results).contains res.subdomain = false)
    (hrec : rec ∈ wildcardFilterStage wc ctSubs res) :
    ({ name := res.subdomain, type := rec.type, value := rec.value, ttl := rec.ttl } :
      FlatRecord) ∈ assembleUnsorted results wc ctSubs := by
  unfold assembleUnsorted
  rw [List.mem_flatMap]
  refine ⟨res, hres, ?_⟩
  unfold processResult
  have hsub : rec ∈ res.records := mem_of_mem_wildcardFilterStage hrec
  have hne : res.records.isEmpty = false := by
    cases hrs : res.records with
    | nil =>
      rw [hrs] at hsub
      cases hsub
    | cons h t => rfl
  rw [if_neg (by simp [hne])]
  unfold cnamePruneStage
  rw [if_neg (by rw [hcn]; simp)]
  exact List.mem_map_of_mem _ hrec

theorem survivingCname_subset_raw (results : List QueryResult) (wc : WildcardInfo)
    (ctSubs : List String) (s : String)
    (h : (specSurvivingCnameSubdomains results wc ctSubs).contains s = true) :
    (subdomainsWithCname results).contains s = true := by
  rw [list_contains_iff] at h ⊢
  unfold specSurvivingCnameSubdomains at h
  rw [List.mem_map] at h
  obtain ⟨res, hres, hsub⟩ := h
  rw [List.mem_filter] at hres
  unfold subdomainsWithCname
  rw [List.mem_map]
  refine ⟨res, ?_, hsub⟩
  rw [List.mem_filter]
  refine ⟨hres.1, ?_⟩
  obtain ⟨rec, hrec, htype⟩ := List.any_eq_true.mp hres.2
  exact List.any_eq_true.mpr ⟨rec, mem_of_mem_wildcardFilterStage hrec, htype⟩

def C1exCnameResult : QueryResult :=
  { subdomain := "www", type := "CNAME",
    records := [{ name := "www.example.com", type := "CNAME", ttl := 300,
                  value := .str "cdn.example.com" }] }

def C1exAResult : QueryResult :=
  { subdomain := "www", type := "A",
    records := [{ name := "www.example.com", type := "A", ttl := 300,
                  value := .str "192.0.2.5" }] }

def C1exWildcard : WildcardInfo :=
  { hasWildcard := true, wildcardTargets := ["cdn.example.com"],
    wildcardCname := some "cdn.example.com" }

/-- C1, counterexample.  The claim says the subdomains whose non-CNAME records are
pruned are exactly those with a CNAME record *surviving wildcard filtering*, and in
particular that a subdomain whose only CNAME was removed as a wildcard false positive
keeps its non-CNAME records.  Here www's CNAME value equals the wildcard target, so it
is filtered out and no subdomain has a surviving CNAME; www's genuine A record itself
survives wildcard filtering and is non-CNAME — yet the final record list is empty,
because the code computes its pruning set from the raw records. -/
theorem C1_counterexample :
    specSurvivingCnameSubdomains [C1exCnameResult, C1exAResult] C1exWildcard [] = [] ∧
    wildcardFilterStage C1exWildcard [] C1exAResult = C1exAResult.records ∧
    C1exAResult.records ≠ [] ∧
    (C1exAResult.records.all fun r => r.type != "CNAME") = true ∧
    assembleUnsorted [C1exCnameResult, C1exAResult] C1exWildcard [] = [] := by
  exact ⟨by decide, by decide, by decide, by decide, by decide⟩

/-- C1, amended.  In assembly, the set of subdomains whose non-CNAME records are pruned
equals the set of subdomains with at least one CNAME record among the raw,
pre-wildcard-filter outcome records: (1) every assembled record of such a subdomain is
a CNAME; (2) a subdomain outside that set keeps every record that survives wildcard
filtering; and (3) since a surviving CNAME is a fortiori a raw CNAME, every subdomain
with a surviving CNAME record has no non-CNAME record in the final list. -/
theorem C1_theorem :
    (∀ (results : List QueryResult) (wc : WildcardInfo) (ctSubs : List String)
       (r : FlatRecord), r ∈ assembleUnsorted results wc ctSubs →
       (subdomainsWithCname results).contains r.name = true → r.type = "CNAME") ∧
    (∀ (results : List QueryResult) (wc : WildcardInfo) (ctSubs : List String)
       (res : QueryResult) (rec : DnsRecord), res ∈ results →
       (subdomainsWithCname results).contains res.subdomain = false →
       rec ∈ wildcardFilterStage wc ctSubs res →
       ({ name := res.subdomain, type := rec.type, value := rec.value, ttl := rec.ttl } :
         FlatRecord) ∈ assembleUnsorted results wc ctSubs) ∧
    (∀ (results : List QueryResult) (wc : WildcardInfo) (ctSubs : List String)
       (r : FlatRecord), r ∈ assembleUnsorted results wc ctSubs →
       (specSurvivingCnameSubdomains results wc ctSubs).contains r.name = true →
       r.type = "CNAME") :=
  ⟨assemble_cname_pruned, assemble_keeps_of_no_raw_cname,
   fun results wc ctSubs r hmem hs =>
     assemble_cname_pruned results wc ctSubs r hmem
       (survivingCname_subset_raw results wc ctSubs r.name hs)⟩

def C1noWildcard : WildcardInfo := { hasWildcard := false, wildcardTargets := [] }

theorem C1_witness :
    ({ name := "www", type := "A", value := .str "192.0.2.5", ttl := 300 } : FlatRecord) ∈
      assembleUnsorted [C1exAResult] C1noWildcard [] :=
  C1_theorem.2.1 [C1exAResult] C1noWildcard [] C1exAResult
    { name := "www.example.com", type := "A", ttl := 300, value := .str "192.0.2.5" }
    (by decide) (by decide) (by decide)

/-! ## Claim C2: wildcard false-positive filtering -/

/-- A record's value variant matches its kind the way `parseRecord` produces them:
structured values arise only for MX, SOA and SRV. -/
def wellFormedRecord (r : DnsRecord) : Prop :=
  match r.value with
  | .str _ => True
  | .mx _ _ => r.type = "MX"
  | .soa _ _ _ _ _ _ _ => r.type = "SOA"
  | .srv _ _ _ _ => r.type = "SRV"

def structuredValue : RecordValue → Bool
  | .str _ => false
  | _ => true

/-- C2, confirmed.  When a wildcard is detected, a record of a filter-eligible
subdomain survives the wildcard filter iff NOT (its kind is in the wildcard-affected
set {A, AAAA, CNAME, TXT, CAA} and its normalized string value equals one of the
wildcard's recorded target values); and a record with a structured (MX/SOA/SRV) value
is never wildcard-filtered. -/
theorem C2_theorem (wc : WildcardInfo) (ctSubs : List String) (res : QueryResult)
    (r : DnsRecord) (hw : wc.hasWildcard = true)
    (he : wildcardEligible ctSubs res.subdomain = true)
    (hwf : wellFormedRecord r) (hr : r ∈ res.records) :
    (r ∈ wildcardFilterStage wc ctSubs res ↔
      ¬(WILDCARD_AFFECTED_TYPES.contains r.type = true ∧
        wc.wildcardTargets.contains (recordStrValue r) = true)) ∧
    (structuredValue r.value = true → r ∈ wildcardFilterStage wc ctSubs res) := by
  have hstage : wildcardFilterStage wc ctSubs res =
      res.records.filter (keepUnderWildcard wc.wildcardTargets) := by
    unfold wildcardFilterStage
    rw [if_pos (by rw [hw, he]; rfl)]
  constructor
  · rw [hstage, List.mem_filter]
    constructor
    · rintro ⟨-, hk⟩ ⟨hT, hV⟩
      rw [list_contains_iff] at hT hV
      simp [keepUnderWildcard] at hk
      rcases hk with hk | hk
      · exact hk hT
      · exact hk hV
    · intro hn
      refine ⟨hr, ?_⟩
      by_cases hT : WILDCARD_AFFECTED_TYPES.contains r.type = true
      · have hV : wc.wildcardTargets.contains (recordStrValue r) = false := by
          cases hVb : wc.wildcardTargets.contains (recordStrValue r)
          · rfl
          · exact absurd ⟨hT, hVb⟩ hn
        unfold keepUnderWildcard
        rw [hT, hV]
        rfl
      · have hT' : WILDCARD_AFFECTED_TYPES.contains r.type = false := Bool.eq_false_iff.mpr hT
        unfold keepUnderWildcard
        rw [hT']
        rfl
  · intro hs
    rw [hstage, List.mem_filter]
    refine ⟨hr, ?_⟩
    have ht : r.type = "MX" ∨ r.type = "SOA" ∨ r.type = "SRV" := by
      unfold wellFormedRecord at hwf
      cases hv : r.value with
      | str s =>
        rw [hv] at hs
        simp [structuredValue] at hs
      | mx p e =>
        rw [hv] at hwf
        exact Or.inl hwf
      | soa m rn se re rt ex mi =>
        rw [hv] at hwf
        exact Or.inr (Or.inl hwf)
      | srv p w po t =>
        rw [hv] at hwf
        exact Or.inr (Or.inr hwf)
    have hT : WILDCARD_AFFECTED_TYPES.contains r.type = false := by
      rcases ht with h | h | h <;> rw [h] <;> decide
    unfold keepUnderWildcard
    rw [hT]
    rfl

def C2exWildcard : WildcardInfo :=
  { hasWildcard := true, wildcardTargets := ["198.51.100.1"] }

def C2exRecordHit : DnsRecord :=
  { name := "ftp.example.com", type := "A", ttl := 300, value := .str "198.51.100.1" }

def C2exRecordMiss : DnsRecord :=
  { name := "ftp.example.com", type := "A", ttl := 300, value := .str "192.0.2.5" }

def C2exResult : QueryResult :=
  { subdomain := "ftp", type := "A", records := [C2exRecordHit, C2exRecordMiss] }

theorem C2_witness :
    (C2exRecordHit ∈ wildcardFilterStage C2exWildcard [] C2exResult ↔
      ¬(WILDCARD_AFFECTED_TYPES.contains C2exRecordHit.type = true ∧
        C2exWildcard.wildcardTargets.contains (recordStrValue C2exRecordHit) = true)) ∧
    (structuredValue C2exRecordHit.value = true →
      C2exRecordHit ∈ wildcardFilterStage C2exWildcard [] C2exResult) :=
  C2_theorem C2exWildcard [] C2exResult C2exRecordHit rfl (by decide) trivial (by decide)

/-! ## Claim C3: wildcard-filter eligibility -/

/-- C3, confirmed.  (1) A subdomain is eligible for wildcard filtering iff it is a
static-catalog subdomain other than the apex marker and not underscore-prefixed, or a
CT-discovered subdomain (one of the handler's `ctSubdomains`, i.e. a CT name not in
the static catalog); (2) every CT-discovered subdomain is eligible, even one beginning
with an underscore; (3) an outcome of the ineligible subdomain `_dmarc` passes the
wildcard filter stage untouched, regardless of the wildcard state. -/
theorem C3_theorem :
    (∀ (ctList : List String) (s : String),
      wildcardEligible (ctSubdomainsOf ctList) s = true ↔
        ((s ∈ staticSubdomains ∧ s ≠ "@" ∧ strStartsWith s "_" = false) ∨
         (s ∈ ctList ∧ s ∉ staticSubdomains))) ∧
    (∀ (ctList : List String) (s : String), s ∈ ctSubdomainsOf ctList →
      wildcardEligible (ctSubdomainsOf ctList) s = true) ∧
    (∀ (ctList : List String) (wc : WildcardInfo) (res : QueryResult),
      res.subdomain = "_dmarc" →
      wildcardFilterStage wc (ctSubdomainsOf ctList) res = res.records) := by
  refine ⟨?_, ?_, ?_⟩
  · intro ctList s
    unfold wildcardEligible WILDCARD_FILTERED_SUBDOMAINS ctSubdomainsOf
    rw [Bool.or_eq_true, list_contains_iff, list_contains_iff, List.mem_filter,
      List.mem_filter]
    simp [list_contains_iff]
  · intro ctList s h
    unfold wildcardEligible
    rw [Bool.or_eq_true]
    exact Or.inr ((list_contains_iff _ _).mpr h)
  · intro ctList wc res hsub
    have h1 : WILDCARD_FILTERED_SUBDOMAINS.contains "_dmarc" = false := by decide
    have h2 : (ctSubdomainsOf ctList).contains "_dmarc" = false := by
      cases hc : (ctSubdomainsOf ctList).contains "_dmarc"
      · rfl
      · exfalso
        have hm := (list_contains_iff _ _).mp hc
        unfold ctSubdomainsOf at hm
        rw [List.mem_filter] at hm
        have h3 : staticSubdomains.contains "_dmarc" = false := by simpa using hm.2
        have h4 : staticSubdomains.contains "_dmarc" = true := by decide
        rw [h3] at h4
        exact absurd h4 (by simp)
    have he : wildcardEligible (ctSubdomainsOf ctList) "_dmarc" = false := by
      unfold wildcardEligible
      rw [h1, h2]
      rfl
    unfold wildcardFilterStage
    rw [hsub, he, Bool.and_false]
    simp

def C3exResult : QueryResult :=
  { subdomain := "_dmarc", type := "TXT",
    records := [{ name := "_dmarc.example.com", type := "TXT", ttl := 300,
                  value := .str "v=DMARC1; p=none" }] }

def C3exWildcard : WildcardInfo :=
  { hasWildcard := true, wildcardTargets := ["v=DMARC1; p=none"] }

theorem C3_witness :
    wildcardFilterStage C3exWildcard (ctSubdomainsOf ["staging"]) C3exResult =
      C3exResult.records :=
  C3_theorem.2.2 ["staging"] C3exWildcard C3exResult rfl

/-! ## Claim C4: resolver-client error handling -/

/-- C4, confirmed.  For every resolver response, `queryDns` (total, hence it never
raises) returns: upstream status 3 → empty records, no error; other non-zero status →
empty records, non-empty error string; transport failure or non-2xx HTTP status →
empty records, non-empty error string (for a thrown `Error` this is its message, which
the runtime makes non-empty — the hypothesis of the third conjunct); status 0 with no
answer section → empty records, no error; and every result with an error has empty
records. -/
theorem C4_theorem :
    (∀ (sub ty : String) (d : DnsApiResponse), d.Status = 3 →
      (queryDnsModel sub ty (.success d)).records = [] ∧
      (queryDnsModel sub ty (.success d)).error = none) ∧
    (∀ (sub ty : String) (d : DnsApiResponse), d.Status ≠ 0 → d.Status ≠ 3 →
      (queryDnsModel sub ty (.success d)).records = [] ∧
      ∃ e, (queryDnsModel sub ty (.success d)).error = some e ∧ e ≠ "") ∧
    (∀ (sub ty : String) (isError : Bool) (msg : String), (isError = true → msg ≠ "") →
      (queryDnsModel sub ty (.throwErr isError msg)).records = [] ∧
      ∃ e, (queryDnsModel sub ty (.throwErr isError msg)).error = some e ∧ e ≠ "") ∧
    (∀ (sub ty : String) (status : Nat),
      (queryDnsModel sub ty (.httpError status)).records = [] ∧
      ∃ e, (queryDnsModel sub ty (.httpError status)).error = some e ∧ e ≠ "") ∧
    (∀ (sub ty : String) (d : DnsApiResponse), d.Status = 0 → d.Answer = none →
      (queryDnsModel sub ty (.success d)).records = [] ∧
      (queryDnsModel sub ty (.success d)).error = none) ∧
    (∀ (sub ty : String) (fetch : FetchResult) (e : String),
      (queryDnsModel sub ty fetch).error = some e →
      (queryDnsModel sub ty fetch).records = []) := by
  refine ⟨?_, ?_, ?_, ?_, ?_, ?_⟩
  · intro sub ty d h
    constructor <;> simp [queryDnsModel, h]
  · intro sub ty d h0 h3
    refine ⟨by simp [queryDnsModel, h0, h3], "DNS error: " ++ toString d.Status,
      by simp [queryDnsModel, h0, h3], append_ne_empty_left _ _ (by decide)⟩
  · intro sub ty isError msg h
    cases isError with
    | true =>
      exact ⟨rfl, msg, by simp [queryDnsModel], h rfl⟩
    | false =>
      exact ⟨rfl, "Query failed", by simp [queryDnsModel], by decide⟩
  · intro sub ty status
    exact ⟨rfl, "HTTP " ++ toString status, by simp [queryDnsModel],
      append_ne_empty_left _ _ (by decide)⟩
  · intro sub ty d h0 hA
    constructor <;> simp [queryDnsModel, h0, hA]
  · intro sub ty fetch e h
    cases fetch with
    | throwErr isErr msg => rfl
    | httpError s => rfl
    | success d =>
      by_cases h0 : d.Status = 0
      · cases hA : d.Answer with
        | none => simp [queryDnsModel, h0, hA]
        | some answers =>
          exfalso
          simp [queryDnsModel, h0, hA] at h
      · by_cases h3 : d.Status = 3
        · exfalso
          simp [queryDnsModel, h0, h3] at h
        · simp [queryDnsModel, h0, h3]

theorem C4_witness :
    (queryDnsModel "www" "A" (.success { Status := 3 })).records = [] ∧
    (queryDnsModel "www" "A" (.success { Status := 3 })).error = none ∧
    (queryDnsModel "www" "A" (.success { Status := 2 })).records = [] ∧
    (∃ e, (queryDnsModel "www" "A" (.success { Status := 2 })).error = some e ∧ e ≠ "") ∧
    (∃ e, (queryDnsModel "www" "A" (.throwErr true "network unreachable")).error = some e ∧
      e ≠ "") ∧
    (queryDnsModel "www" "A" (.httpError 500)).records = [] :=
  ⟨(C4_theorem.1 "www" "A" _ rfl).1, (C4_theorem.1 "www" "A" _ rfl).2,
   (C4_theorem.2.1 "www" "A" _ (by decide) (by decide)).1,
   (C4_theorem.2.1 "www" "A" _ (by decide) (by decide)).2,
   (C4_theorem.2.2.1 "www" "A" true "network unreachable" (fun _ => by decide)).2,
   (C4_theorem.2.2.2.1 "www" "A" 500).1⟩

/-! ## Claim C5: domain validation -/

/-- C5, counterexample.  The claim says a domain parameter that is empty *after* trim,
lowercasing and scheme-and-path stripping is rejected with the input error.  But the
code checks `!domain` on the raw parameter before cleaning: for the one-space domain
parameter — non-empty raw, empty after cleaning — the handler proceeds to scan the
empty cleaned domain instead of returning the error response. -/
theorem C5_counterexample :
    (" " : String) ≠ "" ∧ cleanDomainOf " " = "" ∧
    handlerDomainStage (some " ") = .scan "" := by
  exact ⟨by decide, by decide, by decide⟩

/-- C5, amended.  The handler returns `{success: false, error: "Domain is required"}`
with status 400 — before any scan — iff the raw `domain` parameter is missing or the
empty string; any other parameter (even one that cleans to the empty string) is
scanned, with trim, lowercasing and scheme-and-path stripping applied afterwards. -/
theorem C5_theorem : ∀ domainParam : Option String,
    ((handlerDomainStage domainParam = .errorResponse false "Domain is required" 400) ↔
      (domainParam = none ∨ domainParam = some "")) ∧
    (∀ d, domainParam = some d → d ≠ "" →
      handlerDomainStage domainParam = .scan (cleanDomainOf d)) := by
  intro dp
  constructor
  · cases dp with
    | none => simp [handlerDomainStage]
    | some d =>
      by_cases h : d = ""
      · subst h
        simp [handlerDomainStage]
      · simp [handlerDomainStage, h]
  · rintro d rfl hne
    simp [handlerDomainStage, hne]

theorem C5_witness :
    handlerDomainStage (some "HTTPS://Example.com/path") =
      .scan (cleanDomainOf "HTTPS://Example.com/path") :=
  (C5_theorem (some "HTTPS://Example.com/path")).2 "HTTPS://Example.com/path" rfl (by decide)

/-! ## Claim C6: CT subject-name extraction -/

def C6exEntry : CrtShEntry := { name_value := "fo\to.example.com", notAfter := 1 }

/-- C6, counterexample.  The claim says a subject name containing "@" or whitespace is
rejected.  A name with an embedded tab — whitespace, surviving `trim` because it is
interior — is not rejected: the code checks only for the space character (and only on
the suffix-stripped part), so the discovered set contains the tab-bearing subdomain. -/
theorem C6_counterexample :
    ctNamesOfEntry C6exEntry = ["fo\to.example.com"] ∧
    ('\t' ∈ ("fo\to.example.com" : String).data ∧ Char.isWhitespace '\t' = true) ∧
    ctProcess "example.com" [C6exEntry] 0 = ["fo\to"] := by
  exact ⟨by decide, ⟨by decide, by decide⟩, by decide⟩

/-- C6, amended.  A string is in the discovered set iff some certificate entry with
expiration strictly after now has a subject name (lowercased, trimmed) that is
non-empty, not "*"-prefixed, not equal to the queried domain, a strict suffix of
"." ++ domain, and whose suffix-stripped subdomain part is non-empty and contains
neither "@" nor a space character; the discovered subdomain is that suffix-stripped
part, deduplicated.  Expired certificates contribute no names. -/
theorem C6_theorem : ∀ (domain : String) (entries : List CrtShEntry) (now : Int)
    (s : String),
    s ∈ ctProcess domain entries now ↔
      ∃ e ∈ entries, e.notAfter > now ∧ ∃ name ∈ ctNamesOfEntry e,
        name ≠ "" ∧ strStartsWith name "*" = false ∧ name ≠ domain ∧
        strEndsWith name ("." ++ domain) = true ∧
        s = strDropRight name (domain.length + 1) ∧ s ≠ "" ∧
        s.data.contains '@' = false ∧ s.data.contains ' ' = false := by
  intro domain entries now s
  unfold ctProcess
  rw [mem_dedupFirst, List.mem_flatMap]
  constructor
  · rintro ⟨e, he, hcand⟩
    rw [List.mem_filter] at he
    refine ⟨e, he.1, by simpa using he.2, ?_⟩
    unfold ctCandidatesOfEntry at hcand
    rw [List.mem_filterMap] at hcand
    obtain ⟨name, hname, hsome⟩ := hcand
    exact ⟨name, hname, ctCandidate_eq_some_iff.mp hsome⟩
  · rintro ⟨e, he, hact, name, hname, hprops⟩
    refine ⟨e, ?_, ?_⟩
    · rw [List.mem_filter]
      exact ⟨he, by simpa using hact⟩
    · unfold ctCandidatesOfEntry
      rw [List.mem_filterMap]
      exact ⟨name, hname, ctCandidate_eq_some_iff.mpr hprops⟩

/-! ## Claim C7: CT cache freshness -/

/-- C7, confirmed.  A cache entry younger than one hour is returned unchanged with
`cached = true`, whatever the external fetch would have produced (the fetch argument
is irrelevant, i.e. no external fetch is consulted); an entry aged one hour or more is
treated exactly as an absent entry — the live path runs — and its result never carries
`cached = true`. -/
theorem C7_theorem (entry : CtCacheEntry) (now : Int) (domain : String) (f : CtFetch) :
    (now - entry.cachedAt < CT_CACHE_TTL_MS →
      fetchCtModel (some entry) now domain f =
        { subdomains := entry.subdomains, totalCerts := entry.totalCerts,
          activeCerts := entry.activeCerts, cached := some true }) ∧
    (CT_CACHE_TTL_MS ≤ now - entry.cachedAt →
      fetchCtModel (some entry) now domain f = fetchCtModel none now domain f ∧
      (fetchCtModel (some entry) now domain f).cached ≠ some true) := by
  constructor
  · intro h
    simp [fetchCtModel, ctCacheLookup, h]
  · intro h
    have h' : ¬(now - entry.cachedAt < CT_CACHE_TTL_MS) := not_lt.mpr h
    constructor
    · simp [fetchCtModel, ctCacheLookup, h']
    · simp only [fetchCtModel, ctCacheLookup, if_neg h']
      cases f with
      | failure => simp [ctLive]
      | ok entries => simp [ctLive]

theorem C7_witness :
    fetchCtModel
        (some { subdomains := ["staging"], totalCerts := 5, activeCerts := 3, cachedAt := 0 })
        10 "example.com" .failure =
      { subdomains := ["staging"], totalCerts := 5, activeCerts := 3, cached := some true } :=
  (C7_theorem { subdomains := ["staging"], totalCerts := 5, activeCerts := 3, cachedAt := 0 }
    10 "example.com" .failure).1 (by decide)

/-! ## Claim C8: output ordering -/

def C8exResultA : QueryResult :=
  { subdomain := "www", type := "A",
    records := [{ name := "www.example.com", type := "A", ttl := 300,
                  value := .str "192.0.2.1" }] }

def C8exResultB : QueryResult :=
  { subdomain := "www", type := "A",
    records := [{ name := "www.example.com", type := "A", ttl := 300,
                  value := .str "192.0.2.2" }] }

def C8noWildcard : WildcardInfo := { hasWildcard := false, wildcardTargets := [] }

/-- C8, counterexample.  Two outcomes carry records that tie on (name, kind) but differ
in value.  The two input orderings of the outcomes are permutations of each other —
the same multiset of surviving records — yet the stable sort keeps the encounter order
of the tied records, so the two final record lists differ, refuting the claimed
input-order independence. -/
theorem C8_counterexample :
    sortRecords (assembleUnsorted [C8exResultA, C8exResultB] C8noWildcard []) =
      [{ name := "www", type := "A", value := .str "192.0.2.1", ttl := 300 },
       { name := "www", type := "A", value := .str "192.0.2.2", ttl := 300 }] ∧
    sortRecords (assembleUnsorted [C8exResultB, C8exResultA] C8noWildcard []) =
      [{ name := "www", type := "A", value := .str "192.0.2.2", ttl := 300 },
       { name := "www", type := "A", value := .str "192.0.2.1", ttl := 300 }] ∧
    [C8exResultA, C8exResultB].Perm [C8exResultB, C8exResultA] ∧
    sortRecords (assembleUnsorted [C8exResultA, C8exResultB] C8noWildcard []) ≠
      sortRecords (assembleUnsorted [C8exResultB, C8exResultA] C8noWildcard []) := by
  exact ⟨by decide, by decide, List.Perm.swap C8exResultB C8exResultA [], by decide⟩

/-- C8, amended.  The sorted output is a permutation of the surviving records and is
ordered with every "@"-named record before every other record, distinct names in
ascending lexicographic order, and equal names in ascending lexicographic order of
kind name; and the same multiset yields the same output for every input ordering
provided no two distinct records share both name and kind (in general the sort is
stable, so records tied on name and kind keep their input order). -/
theorem C8_theorem : ∀ l : List FlatRecord,
    (sortRecords l).Perm l ∧
    List.Pairwise apexFirstOrder (sortRecords l) ∧
    (∀ l', l.Perm l' →
      (∀ a ∈ l, ∀ b ∈ l, a.name = b.name → a.type = b.type → a = b) →
      sortRecords l = sortRecords l') := by
  intro l
  refine ⟨List.perm_insertionSort recordLE l, ?_, ?_⟩
  · exact (List.sorted_insertionSort recordLE l).imp fun h => recordLE_imp_apexFirstOrder h
  · intro l' hperm hinj
    refine sortedPermUnique (sortRecords l) (sortRecords l')
      (List.sorted_insertionSort recordLE l) (List.sorted_insertionSort recordLE l')
      ((List.perm_insertionSort recordLE l).trans
        (hperm.trans (List.perm_insertionSort recordLE l').symm)) ?_
    intro a ha b hb
    exact hinj a ((List.perm_insertionSort recordLE l).mem_iff.mp ha)
      b ((List.perm_insertionSort recordLE l).mem_iff.mp hb)

theorem C8_witness :
    sortRecords [{ name := "www", type := "A", value := .str "192.0.2.7", ttl := 60 },
                 { name := "@", type := "TXT", value := .str "v=spf1 -all", ttl := 60 }] =
      sortRecords [{ name := "@", type := "TXT", value := .str "v=spf1 -all", ttl := 60 },
                   { name := "www", type := "A", value := .str "192.0.2.7", ttl := 60 }] :=
  (C8_theorem [{ name := "www", type := "A", value := .str "192.0.2.7", ttl := 60 },
               { name := "@", type := "TXT", value := .str "v=spf1 -all", ttl := 60 }]).2.2
    [{ name := "@", type := "TXT", value := .str "v=spf1 -all", ttl := 60 },
     { name := "www", type := "A", value := .str "192.0.2.7", ttl := 60 }]
    (List.Perm.swap
      ({ name := "@", type := "TXT", value := .str "v=spf1 -all", ttl := 60 } : FlatRecord)
      ({ name := "www", type := "A", value := .str "192.0.2.7", ttl := 60 } : FlatRecord) [])
    (by decide)

/-! ## Claim C9: totalRecords consistency -/

/-- C9, confirmed.  In every successful response the `totalRecords` field equals the
length of the `records` list, for every combination of query outcomes, wildcard
result, DNSSEC flag and CT data. -/
theorem C9_theorem (cleanDomain resolver : String) (queryTime : Int)
    (results : List QueryResult) (wc : WildcardInfo) (dnssecParam : Bool)
    (ctData : Option CtResult) :
    (buildResponse cleanDomain resolver queryTime results wc dnssecParam ctData).totalRecords =
      (buildResponse cleanDomain resolver queryTime results wc dnssecParam ctData).records.length :=
  rfl

/-! ## Claim C10: DNSSEC reporting -/

/-- C10, confirmed.  When the dnssec flag is requested the response carries
`dnssec = {enabled: true, valid}` with `valid` true exactly when some dispatched
outcome carried the upstream AD flag as true (so one authenticated outcome suffices);
when the flag is not requested the `dnssec` field is absent. -/
theorem C10_theorem (cleanDomain resolver : String) (queryTime : Int)
    (results : List QueryResult) (wc : WildcardInfo) (ctData : Option CtResult) :
    ((buildResponse cleanDomain resolver queryTime results wc true ctData).dnssec =
      some { enabled := true, valid := results.any (fun r => r.dnssecValid == some true) }) ∧
    ((results.any (fun r => r.dnssecValid == some true) = true) ↔
      ∃ r ∈ results, r.dnssecValid = some true) ∧
    ((buildResponse cleanDomain resolver queryTime results wc false ctData).dnssec = none) := by
  refine ⟨rfl, ?_, rfl⟩
  simp [List.any_eq_true]

end DnsMonitor

